import Mathlib

/-!
Verification development for the serverdeno audio-bridge repository.

The definitions below are shallow embeddings of the TypeScript source:
pure functions become Lean functions on `Nat`/`Int` (JavaScript 32-bit
bitwise semantics are made explicit where they matter), the callback-driven
session handlers become step functions over explicit state records, and the
single-threaded JavaScript event loop is modelled by folding a step function
over a list of events.
-/

/-! ## Audio transcoding pipeline (src/unnamed/part_001) -/

/-- Wrapping an integer value into the signed 16-bit range, as a JavaScript
`Int16Array` element store does (truncate-to-integer then take the low
16 bits, interpreted as signed). -/
def toInt16 (x : Int) : Int := (x + 32768) % 65536 - 32768

/-- `ulaw2linear` from src/unnamed/part_001 lines 282-287.  The argument is a
byte (0..255).  The JavaScript `~u_val` operates on the 32-bit two's
complement representation; for a byte argument its 32-bit pattern is
`2^32 - 1 - u_val`, which the masks `0x0F`, `0x70`, `0x80` then inspect. -/
def ulaw2linear (u_val : Nat) : Int :=
  let c : Nat := 2 ^ 32 - 1 - u_val
  let t0 : Nat := ((c &&& 0x0F) <<< 3) + 0x84
  let t : Nat := t0 <<< ((c &&& 0x70) >>> 4)
  if c &&& 0x80 ≠ 0 then (0x84 : Int) - (t : Int) else (t : Int) - 0x84

/-- `alaw2linear` from src/unnamed/part_001 lines 289-299 (byte argument). -/
def alaw2linear (a_val : Nat) : Int :=
  let a : Nat := a_val ^^^ 0x55
  let t1 : Nat := (a &&& 0x0F) <<< 4
  let seg : Nat := (a &&& 0x70) >>> 4
  let t2 : Nat :=
    if seg = 0 then t1 + 8
    else if seg = 1 then t1 + 0x108
    else (t1 + 0x108) <<< (seg - 1)
  if a &&& 0x80 ≠ 0 then (t2 : Int) else -(t2 : Int)

/-- `decodeG711` from src/unnamed/part_001 lines 271-278: decodes each byte
and stores the result into an `Int16Array` (hence the `toInt16` wrap). -/
def decodeG711 (data : List Nat) (isALaw : Bool) : List Int :=
  data.map (fun v => toInt16 (if isALaw then alaw2linear v else ulaw2linear v))

/-- The ITU-T G.711 µ-law expansion, written from the published standard's
closed form: with `c` the bitwise complement of the byte, sign bit `s`,
exponent `e` and mantissa `m`, the decoded value is
`±((2·m + 33)·2^e − 33)·4`.  This is the reference the spec's
"published G.711 reference test vectors" denote; it is compared against
the source's bit-twiddling implementation below. -/
def ulawReference (b : Nat) : Int :=
  let c : Nat := 255 - b
  let s : Nat := c / 128
  let e : Nat := (c / 16) % 8
  let m : Nat := c % 16
  let mag : Int := ((2 * m + 33) * 2 ^ e - 33) * 4
  if s = 1 then -mag else mag

/-- `resample16kTo24k` from src/unnamed/part_001 lines 217-249.
Output length is `Math.floor(inputLength * 1.5)`; each output position
`i` maps to source position `i / 1.5 = 2i/3`, with linear interpolation
between the two neighbouring samples and a last-sample fallback.
Sample values are modelled with exact rational interpolation (the fraction
`2i/3 - ⌊2i/3⌋` is `r/3` with `r = 2i mod 3`); the source computes them in
binary floating point, which can differ in the low bits, but the length —
the only quantity the claims below concern — is identical.  The
`Int16Array` store truncates toward zero, hence `Int.div`. -/
def resample16kTo24k (input : List Int) : List Int :=
  let n := input.length
  let outputLength := n * 3 / 2
  (List.range outputLength).map (fun i =>
    let index : Nat := i * 2 / 3
    let r : Int := (2 * (i : Int)) - 3 * (index : Int)
    if index + 1 < n then
      let val1 := input.getD index 0
      let val2 := input.getD (index + 1) 0
      toInt16 (Int.tdiv (3 * val1 + (val2 - val1) * r) 3)
    else
      input.getD index 0)

/-- `resample8kTo24k` from src/unnamed/part_001 lines 251-269.
Exactly three output samples per input sample: the sample itself and two
`Math.floor`-ed interpolation points at fractions 0.33 and 0.66 toward the
next sample (the constants are modelled as the rationals 33/100 and 66/100;
the source's floating-point values can differ in the low bits of the sample
values, not in the count).  `Math.floor` rounds toward −∞, hence `Int.fdiv`. -/
def resample8kTo24k (input : List Int) : List Int :=
  let n := input.length
  (List.range (n * 3)).map (fun j =>
    let i : Nat := j / 3
    let sample := input.getD i 0
    let nextSample := if i + 1 < n then input.getD (i + 1) 0 else sample
    if j % 3 = 0 then toInt16 sample
    else if j % 3 = 1 then toInt16 (Int.fdiv (100 * sample + (nextSample - sample) * 33) 100)
    else toInt16 (Int.fdiv (100 * sample + (nextSample - sample) * 66) 100))

/-- The output-length formula the spec states:
`round(inputLength × targetRate / sourceRate)`, with round-half-up
(`round(x) = ⌊x + 1/2⌋`), expressed over naturals. -/
def specRoundLength (n target source : Nat) : Nat :=
  (2 * (n * target) + source) / (2 * source)

theorem resample8k_length (input : List Int) :
    (resample8kTo24k input).length = 3 * input.length := by
  simp [resample8kTo24k, Nat.mul_comm]

theorem resample16k_length (input : List Int) :
    (resample16kTo24k input).length = input.length * 3 / 2 := by
  simp [resample16kTo24k]

theorem specRoundLength_8k (n : Nat) : specRoundLength n 24000 8000 = 3 * n := by
  unfold specRoundLength
  omega

theorem specRoundLength_16k (n : Nat) : specRoundLength n 24000 16000 = (3 * n + 1) / 2 := by
  unfold specRoundLength
  omega

/-- C6: for every 8-bit input byte, the source's bit-twiddling µ-law decoder
agrees with the ITU-T G.711 reference expansion; in particular byte `0xFF`
decodes to linear 0 and byte `0x00` to the µ-law maximum-negative value
−32124, also through `decodeG711`'s element-wise decode. -/
theorem ulaw_decode_matches_g711_reference :
    (∀ u < 256, ulaw2linear u = ulawReference u) ∧
    decodeG711 [0xFF] false = [0] ∧
    decodeG711 [0x00] false = [-32124] := by
  refine ⟨?_, by decide, by decide⟩
  set_option maxRecDepth 10000 in decide

theorem ulaw_decode_matches_g711_reference_witness :
    (200 : Nat) < 256 ∧ ulaw2linear 200 = ulawReference 200 :=
  ⟨by decide, ulaw_decode_matches_g711_reference.1 200 (by decide)⟩

/-- C5 counterexample: a single-sample input resampled 16 kHz → 24 kHz has
output length `Math.floor(1 * 1.5) = 1`, whereas the claimed formula
`round(1 × 24000/16000) = 2`; so the round-length formula fails for odd
input lengths on `resample16kTo24k`. -/
theorem resample16k_length_breaks_round_formula :
    (resample16kTo24k [5]).length ≠ specRoundLength (List.length [(5 : Int)]) 24000 16000 := by
  decide

/-- C5 (amended): `resample8kTo24k` produces exactly `3 × inputLength`
samples, which always agrees with the round-length formula (in particular
1000 input samples yield 3000); `resample16kTo24k` produces
`Math.floor(inputLength × 1.5)` samples, which agrees with the round-length
formula exactly when the input length is even (odd lengths yield one sample
fewer than the formula). -/
theorem resample_output_length (input : List Int) :
    (resample8kTo24k input).length = specRoundLength input.length 24000 8000 ∧
    (resample16kTo24k input).length = input.length * 3 / 2 ∧
    (input.length % 2 = 0 →
      (resample16kTo24k input).length = specRoundLength input.length 24000 16000) := by
  refine ⟨?_, resample16k_length input, ?_⟩
  · rw [resample8k_length, specRoundLength_8k]
  · intro hEven
    rw [resample16k_length, specRoundLength_16k]
    omega

theorem resample_output_length_witness :
    (resample8kTo24k (List.replicate 1000 (0 : Int))).length = 3000 ∧
    (resample16kTo24k (List.replicate 8 (0 : Int))).length = 12 := by
  constructor
  · have h := (resample_output_length (List.replicate 1000 (0 : Int))).1
    rw [List.length_replicate] at h
    norm_num [specRoundLength] at h
    exact h
  · have h := (resample_output_length (List.replicate 8 (0 : Int))).2.2 (by simp)
    rw [List.length_replicate] at h
    norm_num [specRoundLength] at h
    exact h

/-! ## Hume provider adapter session machine (src/models/hume.ts)

`connectToHume` wires three callback families over shared mutable state
(`isConnected`, `messageQueue`, `createdSent`): the upstream socket's
`open`/`message`/`close` handlers and the device socket's `message`
handler.  JavaScript's event loop runs each handler to completion between
`await`s, so a session execution is a sequence of atomic segments: the
fold of a step function over a list of events.  The relevant segment
boundaries: the enqueue/drain/forward paths and the non-audio upstream
branches perform all their modelled sends and state writes before their
first `await` (the awaits in `messageHandler` and the conversation-logging
branches come after the sends and touch none of the modelled state), so
each of those handlers is one atomic step.  The one exception is the
`audio_output` branch: it reads `createdSent` *before* `await
getDeviceInfo(...)` and performs the `RESPONSE.CREATED` send, the
`createdSent = true` write and the audio-frame sends only *after* that
await.  That suspension is modelled explicitly: dispatching an
`audio_output` while `createdSent` is false parks the chunk on a
`pendingCreated` list, and a separate `resume` event performs the
post-await half (resumptions are modelled in FIFO order).  Device frames
are modelled as opaque `Nat` identifiers; the audio transcode applied to
`audio_output` payloads (from the repository's utils module) only shapes
the payload bytes, never the control messages, so a chunk's outbound
frames appear as a single `audioFrames` marker. -/

/-- Messages the bridge writes to the Hume upstream socket. -/
inductive HumeOut where
  | sessionSettings (systemPrompt : String)
  | userInputText (text : String)
  | audioInput (data : Nat)
deriving DecidableEq, Repr

/-- Normalized upstream events, one per `message.type` case of the
`humeWs.on('message')` switch. -/
inductive HumeEvt where
  | assistantEnd
  | assistantMessage
  | audioOutput (data : Nat)
  | chatMetadata
  | userMessage
  | userInputEcho
  | errorEvt (msg : String)
  | sessionCreated
  | sessionEnded
  | unhandled
deriving DecidableEq, Repr

/-- Messages the bridge writes to the device socket. -/
inductive DeviceOut where
  | responseComplete
  | responseCreated
  | responseError (msg : String)
  | sessionCreatedMsg
  | sessionEndMsg
  | audioFrames (data : Nat)
deriving DecidableEq, Repr

/-- The mutable state captured by the `connectToHume` closure, plus the two
outbound message logs.  `pendingCreated` holds the payloads of
`audio_output` handler invocations that passed the `!createdSent` check and
are suspended at the `await getDeviceInfo(...)` inside it. -/
structure HumeState where
  isConnected : Bool
  messageQueue : List Nat
  createdSent : Bool
  pendingCreated : List Nat
  toHume : List HumeOut
  toDevice : List DeviceOut
  deviceClosed : Bool
deriving DecidableEq, Repr

def humeInit : HumeState :=
  { isConnected := false, messageQueue := [], createdSent := false,
    pendingCreated := [], toHume := [], toDevice := [], deviceClosed := false }

/-- `messageHandler` (hume.ts lines 251-274): only binary data is handled,
and it is forwarded as an `audio_input` message only when `isConnected`. -/
def humeMessageHandler (s : HumeState) (data : Nat) (isBinary : Bool) : HumeState :=
  if isBinary && s.isConnected then
    { s with toHume := s.toHume ++ [HumeOut.audioInput data] }
  else s

/-- The `humeWs.on('open')` handler (hume.ts lines 36-65): set the ready
flag, send session settings and the first message, then drain the queue
front-to-back through `messageHandler` with `isBinary = true`. -/
def humeOpenHandler (firstMessage systemPrompt : String) (s : HumeState) : HumeState :=
  let s1 := { s with
    isConnected := true,
    toHume := s.toHume ++
      [HumeOut.sessionSettings systemPrompt, HumeOut.userInputText firstMessage] }
  let s2 := s1.messageQueue.foldl (fun st q => humeMessageHandler st q true) s1
  { s2 with messageQueue := [] }

/-- The pre-await part of the `humeWs.on('message')` handler (hume.ts lines
68-224).  All branches except `audio_output` run their sends and state
writes without an intervening await on the modelled state, so they are
atomic here.  The `audio_output` branch checks `createdSent`: when already
set, the audio frames are encoded and sent in the same segment; when not
yet set, it suspends at `await getDeviceInfo(...)` with everything still to
do — the chunk joins `pendingCreated`, to be finished by
`humeResumeCreated`. -/
def humeUpstreamHandler (s : HumeState) (m : HumeEvt) : HumeState :=
  match m with
  | .assistantEnd =>
      { s with toDevice := s.toDevice ++ [DeviceOut.responseComplete],
               createdSent := false }
  | .audioOutput d =>
      if s.createdSent then
        { s with toDevice := s.toDevice ++ [DeviceOut.audioFrames d] }
      else
        { s with pendingCreated := s.pendingCreated ++ [d] }
  | .errorEvt msg =>
      { s with toDevice := s.toDevice ++ [DeviceOut.responseError msg] }
  | .sessionCreated =>
      { s with toDevice := s.toDevice ++ [DeviceOut.sessionCreatedMsg] }
  | .sessionEnded =>
      { s with toDevice := s.toDevice ++ [DeviceOut.sessionEndMsg] }
  | _ => s

/-- The post-await part of the `audio_output` branch, resuming the oldest
suspended invocation: send `RESPONSE.CREATED` (in every branch of the
device-info lookup — with or without a `volume_control` field, and also in
the catch — so it is one constructor), *then* set `createdSent = true`,
then encode and send the chunk's audio frames.  Note the resumed code does
not re-check `createdSent` after the await. -/
def humeResumeCreated (s : HumeState) : HumeState :=
  match s.pendingCreated with
  | [] => s
  | d :: rest =>
      { s with toDevice := s.toDevice ++
                 [DeviceOut.responseCreated, DeviceOut.audioFrames d],
               createdSent := true,
               pendingCreated := rest }

/-- The `humeWs.on('close')` handler (hume.ts lines 226-234): notify the
device, reset `isConnected` to `false`, close the device socket. -/
def humeCloseHandler (s : HumeState) : HumeState :=
  { s with toDevice := s.toDevice ++ [DeviceOut.sessionEndMsg],
           isConnected := false, deviceClosed := true }

/-- The `ws.on('message')` handler (hume.ts lines 277-283): enqueue while
not connected, otherwise handle directly. -/
def humeDeviceMessage (s : HumeState) (data : Nat) (isBinary : Bool) : HumeState :=
  if s.isConnected then humeMessageHandler s data isBinary
  else { s with messageQueue := s.messageQueue ++ [data] }

/-- One atomic segment of a Hume session execution; `resume` is the
event-loop resumption of the oldest `audio_output` invocation suspended at
its device-info await. -/
inductive HEv where
  | upOpen
  | upMsg (m : HumeEvt)
  | upClose
  | device (data : Nat) (isBinary : Bool)
  | resume
deriving DecidableEq, Repr

def humeStep (firstMessage systemPrompt : String) (s : HumeState) : HEv → HumeState
  | .upOpen => humeOpenHandler firstMessage systemPrompt s
  | .upMsg m => humeUpstreamHandler s m
  | .upClose => humeCloseHandler s
  | .device d b => humeDeviceMessage s d b
  | .resume => humeResumeCreated s

def humeRun (firstMessage systemPrompt : String) (s : HumeState) (evs : List HEv) :
    HumeState :=
  evs.foldl (humeStep firstMessage systemPrompt) s

theorem humeRun_append (fm sp : String) (s : HumeState) (l₁ l₂ : List HEv) :
    humeRun fm sp s (l₁ ++ l₂) = humeRun fm sp (humeRun fm sp s l₁) l₂ :=
  List.foldl_append ..

theorem humeRun_nil (fm sp : String) (s : HumeState) : humeRun fm sp s [] = s := rfl

theorem humeRun_cons (fm sp : String) (s : HumeState) (e : HEv) (evs : List HEv) :
    humeRun fm sp s (e :: evs) = humeRun fm sp (humeStep fm sp s e) evs := rfl

/-- Draining the queue through `messageHandler` with the ready flag set
forwards every queued frame, in order, appended to the upstream log. -/
theorem humeDrain_spec (q : List Nat) (s : HumeState) (h : s.isConnected = true) :
    q.foldl (fun st x => humeMessageHandler st x true) s =
      { s with toHume := s.toHume ++ q.map HumeOut.audioInput } := by
  induction q generalizing s with
  | nil => simp
  | cons x xs ih =>
      have hx : humeMessageHandler s x true =
          { s with toHume := s.toHume ++ [HumeOut.audioInput x] } := by
        simp [humeMessageHandler, h]
      simp only [List.foldl_cons, hx]
      rw [ih _ (by simp [h])]
      simp

theorem humeOpenHandler_spec (fm sp : String) (s : HumeState) :
    humeOpenHandler fm sp s =
      { s with isConnected := true, messageQueue := [],
               toHume := s.toHume ++
                 [HumeOut.sessionSettings sp, HumeOut.userInputText fm] ++
                 s.messageQueue.map HumeOut.audioInput } := by
  unfold humeOpenHandler
  simp [humeDrain_spec]

/-- Device frames arriving while the ready flag is false are appended to the
queue, in arrival order, and nothing is sent upstream for them. -/
theorem humeRun_preopen (fm sp : String) (frames : List Nat) (s : HumeState)
    (h : s.isConnected = false) :
    humeRun fm sp s (frames.map (fun d => HEv.device d true)) =
      { s with messageQueue := s.messageQueue ++ frames } := by
  induction frames generalizing s with
  | nil => simp [humeRun_nil]
  | cons f fs ih =>
      have hx : humeStep fm sp s (HEv.device f true) =
          { s with messageQueue := s.messageQueue ++ [f] } := by
        simp [humeStep, humeDeviceMessage, h]
      simp only [List.map_cons, humeRun_cons, hx]
      rw [ih _ (by simp [h])]
      simp

/-- C1: for every sequence of binary device frames that arrive before the
upstream `open` event, the `open` handler's drain forwards exactly those
frames upstream, in arrival order, each exactly once (right after the
session-settings and first-message sends), and the queue is left empty. -/
theorem hume_preready_frames_forwarded_in_order (fm sp : String) (frames : List Nat) :
    (humeRun fm sp humeInit
        ((frames.map (fun d => HEv.device d true)) ++ [HEv.upOpen])).toHume =
      [HumeOut.sessionSettings sp, HumeOut.userInputText fm] ++
        frames.map HumeOut.audioInput ∧
    (humeRun fm sp humeInit
        ((frames.map (fun d => HEv.device d true)) ++ [HEv.upOpen])).messageQueue = [] := by
  rw [humeRun_append, humeRun_preopen fm sp frames humeInit rfl]
  simp [humeRun, humeStep, humeOpenHandler_spec, humeInit]

/-- C2 counterexample: the upstream `close` handler (hume.ts line 232) resets
`isConnected` to `false`, so after `open` (which drained the queue) followed
by an upstream `close`, a later inbound binary frame is buffered again: the
queue is not permanently disabled.  The frame is queued and not forwarded. -/
theorem hume_rebuffers_after_upstream_close :
    (humeRun "m" "p" humeInit
        [HEv.upOpen, HEv.upClose, HEv.device 7 true]).messageQueue = [7] ∧
    HumeOut.audioInput 7 ∉
      (humeRun "m" "p" humeInit [HEv.upOpen, HEv.upClose, HEv.device 7 true]).toHume := by
  constructor
  · rfl
  · decide

/-- C2 (amended): once the ready flag is true and the queue is empty — the
state immediately after the `open` handler's drain — the instance buffers no
further inbound frame for as long as no upstream `close` event occurs; an
upstream `close` resets `isConnected` and re-enables buffering. -/
theorem hume_queue_disabled_until_upstream_close (fm sp : String) (s : HumeState)
    (tr : List HEv) (h1 : s.isConnected = true) (h2 : s.messageQueue = [])
    (h3 : HEv.upClose ∉ tr) :
    (humeRun fm sp s tr).isConnected = true ∧
    (humeRun fm sp s tr).messageQueue = [] := by
  induction tr generalizing s with
  | nil => exact ⟨h1, h2⟩
  | cons e evs ih =>
      have h3' : HEv.upClose ∉ evs := fun hmem => h3 (List.mem_cons_of_mem _ hmem)
      rw [humeRun_cons]
      cases e with
      | upOpen =>
          exact ih (humeOpenHandler fm sp s) (by simp [humeOpenHandler_spec])
            (by simp [humeOpenHandler_spec]) h3'
      | upMsg m =>
          refine ih _ ?_ ?_ h3' <;> cases m <;>
            simp only [humeStep, humeUpstreamHandler] <;>
            first
              | (split <;> simp [h1, h2])
              | simp [h1, h2]
      | upClose => exact absurd (List.mem_cons_self _ _) h3
      | device d b =>
          refine ih _ ?_ ?_ h3' <;>
            simp [humeStep, humeDeviceMessage, humeMessageHandler, h1, h2] <;>
            cases b <;> simp [h1, h2]
      | resume =>
          refine ih _ ?_ ?_ h3' <;>
            rcases hp : s.pendingCreated with _ | ⟨d, rest⟩ <;>
            simp [humeStep, humeResumeCreated, hp, h1, h2]

theorem hume_queue_disabled_until_upstream_close_witness :
    ((humeRun "m" "p" humeInit [HEv.upOpen]).isConnected = true ∧
      (humeRun "m" "p" humeInit [HEv.upOpen]).messageQueue = []) ∧
    (humeRun "m" "p" (humeRun "m" "p" humeInit [HEv.upOpen])
        [HEv.device 3 true, HEv.upMsg HumeEvt.assistantEnd]).isConnected = true ∧
    (humeRun "m" "p" (humeRun "m" "p" humeInit [HEv.upOpen])
        [HEv.device 3 true, HEv.upMsg HumeEvt.assistantEnd]).messageQueue = [] :=
  ⟨⟨rfl, rfl⟩,
    hume_queue_disabled_until_upstream_close "m" "p" _
      [HEv.device 3 true, HEv.upMsg HumeEvt.assistantEnd] rfl rfl (by decide)⟩

/-! ### C3: response-created / response-complete signals, exactly once per turn -/

/-- `assistant_end` is Hume's turn-completed event. -/
def isTurnEnd : HumeEvt → Bool
  | .assistantEnd => true
  | _ => false

/-- `audio_output` events carry a turn's audio. -/
def isAudioEvt : HumeEvt → Bool
  | .audioOutput _ => true
  | _ => false

/-- Declarative turn structure of an upstream event sequence: the segments
between `assistant_end` events (the final, possibly incomplete turn
included). -/
def splitTurns : List HumeEvt → List (List HumeEvt)
  | [] => [[]]
  | e :: rest =>
    if isTurnEnd e then [] :: splitTurns rest
    else
      match splitTurns rest with
      | [] => [[e]]
      | t :: ts => (e :: t) :: ts

theorem splitTurns_ne_nil (es : List HumeEvt) : splitTurns es ≠ [] := by
  cases es with
  | nil => simp [splitTurns]
  | cons e rest =>
      simp only [splitTurns]
      split
      · simp
      · split <;> simp

/-- Number of `RESPONSE.CREATED` messages the machine will emit for an event
sequence, given the current `createdSent` flag: one per remaining turn that
contains audio, except that a set flag suppresses the current turn's. -/
def createdFromTurns (flag : Bool) (es : List HumeEvt) : Nat :=
  match splitTurns es with
  | [] => 0
  | t :: ts =>
      (if flag then 0 else if t.any isAudioEvt then 1 else 0) +
        (ts.filter (fun u => u.any isAudioEvt)).length

theorem createdFromTurns_false (es : List HumeEvt) :
    createdFromTurns false es =
      ((splitTurns es).filter (fun u => u.any isAudioEvt)).length := by
  rcases h : splitTurns es with _ | ⟨t, ts⟩
  · exact absurd h (splitTurns_ne_nil es)
  · by_cases ha : t.any isAudioEvt
    · simp [createdFromTurns, h, List.filter_cons, ha, Nat.add_comm]
    · simp [createdFromTurns, h, List.filter_cons, ha]

/-- Occurrences of a given device-bound message in an outbound log. -/
def countOut (target : DeviceOut) : List DeviceOut → Nat
  | [] => 0
  | x :: xs => (if x = target then 1 else 0) + countOut target xs

theorem countOut_append (target : DeviceOut) (l₁ l₂ : List DeviceOut) :
    countOut target (l₁ ++ l₂) = countOut target l₁ + countOut target l₂ := by
  induction l₁ with
  | nil => simp [countOut]
  | cons x xs ih => simp [countOut, ih]; omega

theorem createdFromTurns_end (flag : Bool) (rest : List HumeEvt) :
    createdFromTurns flag (HumeEvt.assistantEnd :: rest) = createdFromTurns false rest := by
  rcases h : splitTurns rest with _ | ⟨t, ts⟩
  · exact absurd h (splitTurns_ne_nil rest)
  · by_cases ha : t.any isAudioEvt <;>
      simp [createdFromTurns, splitTurns, isTurnEnd, h, List.filter_cons, ha] <;> omega

theorem createdFromTurns_audio (flag : Bool) (d : Nat) (rest : List HumeEvt) :
    createdFromTurns flag (HumeEvt.audioOutput d :: rest) =
      (if flag then 0 else 1) + createdFromTurns true rest := by
  rcases h : splitTurns rest with _ | ⟨t, ts⟩
  · exact absurd h (splitTurns_ne_nil rest)
  · simp [createdFromTurns, splitTurns, isTurnEnd, isAudioEvt, h]

theorem createdFromTurns_other (flag : Bool) (e : HumeEvt) (rest : List HumeEvt)
    (hEnd : isTurnEnd e = false) (hAudio : isAudioEvt e = false) :
    createdFromTurns flag (e :: rest) = createdFromTurns flag rest := by
  rcases h : splitTurns rest with _ | ⟨t, ts⟩
  · exact absurd h (splitTurns_ne_nil rest)
  · simp [createdFromTurns, splitTurns, hEnd, hAudio, h, List.any_cons]

/-- Whether an execution event is an upstream `assistant_end` dispatch. -/
def isTurnEndEv : HEv → Bool
  | HEv.upMsg m => isTurnEnd m
  | _ => false

theorem humeStep_complete_count (fm sp : String) (s : HumeState) (e : HEv) :
    countOut DeviceOut.responseComplete (humeStep fm sp s e).toDevice
      = countOut DeviceOut.responseComplete s.toDevice +
          (if isTurnEndEv e then 1 else 0) := by
  cases e with
  | upOpen => simp [humeStep, humeOpenHandler_spec, isTurnEndEv]
  | upMsg m =>
      cases m <;> by_cases hc : s.createdSent <;>
        simp [humeStep, humeUpstreamHandler, isTurnEndEv, isTurnEnd, hc,
          countOut_append, countOut]
  | upClose =>
      simp [humeStep, humeCloseHandler, isTurnEndEv, countOut_append, countOut]
  | device d b =>
      by_cases hc : s.isConnected <;> cases b <;>
        simp [humeStep, humeDeviceMessage, humeMessageHandler, isTurnEndEv, hc,
          countOut_append, countOut]
  | resume =>
      rcases hp : s.pendingCreated with _ | ⟨d, rest⟩ <;>
        simp [humeStep, humeResumeCreated, hp, isTurnEndEv, countOut_append, countOut]

/-- Over every execution trace — any interleaving of dispatches and
resumptions of suspended audio handlers — `RESPONSE.COMPLETE` is emitted
exactly once per `assistant_end` dispatch. -/
theorem hume_complete_count (fm sp : String) (tr : List HEv) (s : HumeState) :
    countOut DeviceOut.responseComplete (humeRun fm sp s tr).toDevice
      = countOut DeviceOut.responseComplete s.toDevice +
          tr.countP (fun e => isTurnEndEv e) := by
  induction tr generalizing s with
  | nil => simp [humeRun_nil]
  | cons e rest ih =>
      rw [humeRun_cons, ih, humeStep_complete_count]
      simp [List.countP_cons]
      omega

/-- Sequential dispatch of an upstream event sequence: each `audio_output`
handler invocation runs to completion — its device-info await resumes —
before the next upstream event is dispatched. -/
def seqEvents : List HumeEvt → List HEv
  | [] => []
  | HumeEvt.audioOutput d :: rest =>
      HEv.upMsg (HumeEvt.audioOutput d) :: HEv.resume :: seqEvents rest
  | e :: rest => HEv.upMsg e :: seqEvents rest

theorem hume_seq_created_count (fm sp : String) (es : List HumeEvt) (s : HumeState)
    (hp : s.pendingCreated = []) :
    countOut DeviceOut.responseCreated (humeRun fm sp s (seqEvents es)).toDevice
      = countOut DeviceOut.responseCreated s.toDevice +
          createdFromTurns s.createdSent es := by
  induction es generalizing s with
  | nil =>
      cases hc : s.createdSent <;>
        simp [seqEvents, humeRun_nil, createdFromTurns, splitTurns, hc]
  | cons m rest ih =>
      cases m with
      | audioOutput d =>
          by_cases hc : s.createdSent
          · have h1 : humeStep fm sp s (HEv.upMsg (HumeEvt.audioOutput d)) =
                { s with toDevice := s.toDevice ++ [DeviceOut.audioFrames d] } := by
              simp [humeStep, humeUpstreamHandler, hc]
            have h2 : humeStep fm sp
                  { s with toDevice := s.toDevice ++ [DeviceOut.audioFrames d] }
                  HEv.resume =
                { s with toDevice := s.toDevice ++ [DeviceOut.audioFrames d] } := by
              simp [humeStep, humeResumeCreated, hp]
            simp only [seqEvents, humeRun_cons, h1, h2]
            rw [ih _ (by simp [hp]), createdFromTurns_audio]
            simp [countOut_append, countOut, hc]
          · have h1 : humeStep fm sp s (HEv.upMsg (HumeEvt.audioOutput d)) =
                { s with pendingCreated := s.pendingCreated ++ [d] } := by
              simp [humeStep, humeUpstreamHandler, hc]
            have h2 : humeStep fm sp
                  { s with pendingCreated := s.pendingCreated ++ [d] } HEv.resume =
                { s with
                    toDevice := s.toDevice ++
                      [DeviceOut.responseCreated, DeviceOut.audioFrames d],
                    createdSent := true,
                    pendingCreated := [] } := by
              simp [humeStep, humeResumeCreated, hp]
            simp only [seqEvents, humeRun_cons, h1, h2]
            rw [ih _ (by simp), createdFromTurns_audio]
            simp [countOut_append, countOut, hc]
            omega
      | assistantEnd =>
          have h1 : humeStep fm sp s (HEv.upMsg HumeEvt.assistantEnd) =
              { s with toDevice := s.toDevice ++ [DeviceOut.responseComplete],
                       createdSent := false } := by
            simp [humeStep, humeUpstreamHandler]
          simp only [seqEvents, humeRun_cons, h1]
          rw [ih _ (by simp [hp]), createdFromTurns_end]
          simp [countOut_append, countOut]
      | assistantMessage =>
          simp only [seqEvents, humeRun_cons, humeStep, humeUpstreamHandler]
          rw [ih _ hp, createdFromTurns_other s.createdSent HumeEvt.assistantMessage rest rfl rfl]
      | chatMetadata =>
          simp only [seqEvents, humeRun_cons, humeStep, humeUpstreamHandler]
          rw [ih _ hp, createdFromTurns_other s.createdSent HumeEvt.chatMetadata rest rfl rfl]
      | userMessage =>
          simp only [seqEvents, humeRun_cons, humeStep, humeUpstreamHandler]
          rw [ih _ hp, createdFromTurns_other s.createdSent HumeEvt.userMessage rest rfl rfl]
      | userInputEcho =>
          simp only [seqEvents, humeRun_cons, humeStep, humeUpstreamHandler]
          rw [ih _ hp, createdFromTurns_other s.createdSent HumeEvt.userInputEcho rest rfl rfl]
      | unhandled =>
          simp only [seqEvents, humeRun_cons, humeStep, humeUpstreamHandler]
          rw [ih _ hp, createdFromTurns_other s.createdSent HumeEvt.unhandled rest rfl rfl]
      | errorEvt msg =>
          simp only [seqEvents, humeRun_cons, humeStep, humeUpstreamHandler]
          rw [ih _ (by simp [hp]), createdFromTurns_other s.createdSent (HumeEvt.errorEvt msg) rest rfl rfl]
          simp [countOut_append, countOut]
      | sessionCreated =>
          simp only [seqEvents, humeRun_cons, humeStep, humeUpstreamHandler]
          rw [ih _ (by simp [hp]), createdFromTurns_other s.createdSent HumeEvt.sessionCreated rest rfl rfl]
          simp [countOut_append, countOut]
      | sessionEnded =>
          simp only [seqEvents, humeRun_cons, humeStep, humeUpstreamHandler]
          rw [ih _ (by simp [hp]), createdFromTurns_other s.createdSent HumeEvt.sessionEnded rest rfl rfl]
          simp [countOut_append, countOut]

/-- C3 counterexample: hume.ts checks `createdSent` before `await
getDeviceInfo(...)` and sets it only after the await, so when a second
`audio_output` chunk is dispatched while the first chunk's device-info
lookup is still pending, both invocations pass the `!createdSent` check and
`RESPONSE.CREATED` is sent twice within one turn (the trace contains no
`assistant_end`, so no turn completes and the guard is never reset). -/
theorem hume_created_twice_in_one_turn :
    countOut DeviceOut.responseCreated
        (humeRun "m" "p" humeInit
          [HEv.upMsg (HumeEvt.audioOutput 1), HEv.upMsg (HumeEvt.audioOutput 2),
            HEv.resume, HEv.resume]).toDevice = 2 ∧
    List.countP (fun e => isTurnEndEv e)
        [HEv.upMsg (HumeEvt.audioOutput 1), HEv.upMsg (HumeEvt.audioOutput 2),
          HEv.resume, HEv.resume] = 0 := by
  exact ⟨rfl, rfl⟩

/-- C3 (amended): `RESPONSE.COMPLETE` is emitted exactly once per
`assistant_end` over every execution trace, whatever the interleaving of
suspended audio handlers; and when upstream events are processed
sequentially — each `audio_output` handler completing its device-info await
before the next upstream event is dispatched — `RESPONSE.CREATED` is
emitted exactly once per turn containing audio, never more, the
`createdSent` guard (reset only at `assistant_end`) suppressing every later
chunk of the turn.  When audio chunks interleave across the await, the
guard can be defeated and `RESPONSE.CREATED` emitted more than once per
turn. -/
theorem hume_signals_per_turn (fm sp : String) (tr : List HEv) (es : List HumeEvt) :
    countOut DeviceOut.responseComplete (humeRun fm sp humeInit tr).toDevice
      = tr.countP (fun e => isTurnEndEv e) ∧
    countOut DeviceOut.responseCreated
        (humeRun fm sp humeInit (seqEvents es)).toDevice
      = ((splitTurns es).filter (fun t => t.any isAudioEvt)).length := by
  constructor
  · rw [hume_complete_count]
    simp [humeInit, countOut]
  · rw [hume_seq_created_count fm sp es humeInit rfl]
    simp [humeInit, countOut, createdFromTurns_false]

/-! ## Streaming playback controller (src/unnamed/part_001, play_bhajan handler)

The `play_bhajan` handler keeps a per-session counter `activeStreamId`.
Each request increments it and captures the new value as the loop's
`currentStreamId`; the streaming loop checks `activeStreamId !==
currentStreamId` at the top of every iteration, before encoding and
sending that iteration's frame, and breaks on mismatch.  Because the loop
suspends (awaits its pacing sleep) between iterations, the JavaScript
event loop interleaves handler invocations and loop iterations; an
execution is again a fold over an event list.  `totalFrames` abstracts the
number of FRAME_SIZE chunks in the decoded asset buffer. -/

structure PlayState where
  activeStreamId : Nat
  loops : List (Nat × Nat)
  sent : List (Nat × Nat)
deriving DecidableEq, Repr

def playInit : PlayState := { activeStreamId := 0, loops := [], sent := [] }

/-- A `play_bhajan` request: `activeStreamId++`, capture `currentStreamId`,
start a loop at frame offset 0.  The handler performs no waiting. -/
def playRequest (s : PlayState) : PlayState :=
  { s with activeStreamId := s.activeStreamId + 1,
           loops := s.loops ++ [(s.activeStreamId + 1, 0)] }

/-- One resumed iteration of the streaming loop with captured token `c`:
if the loop is no longer active (cancelled check `activeStreamId !==
currentStreamId`) it stops without emitting; otherwise it emits its next
frame and advances (or finishes when the buffer is exhausted). -/
def loopStep (totalFrames : Nat) (s : PlayState) (c : Nat) : PlayState :=
  match s.loops.lookup c with
  | none => s
  | some i =>
    if s.activeStreamId ≠ c then
      { s with loops := s.loops.filter (fun p => p.1 != c) }
    else if i < totalFrames then
      { s with sent := s.sent ++ [(c, i)],
               loops := s.loops.map (fun p => if p.1 = c then (c, i + 1) else p) }
    else
      { s with loops := s.loops.filter (fun p => p.1 != c) }

inductive PEv where
  | request
  | step (c : Nat)
deriving DecidableEq, Repr

def playEvStep (totalFrames : Nat) (s : PlayState) : PEv → PlayState
  | .request => playRequest s
  | .step c => loopStep totalFrames s c

def playRun (totalFrames : Nat) (s : PlayState) (evs : List PEv) : PlayState :=
  evs.foldl (playEvStep totalFrames) s

theorem playRun_nil (tf : Nat) (s : PlayState) : playRun tf s [] = s := rfl

theorem playRun_cons (tf : Nat) (s : PlayState) (e : PEv) (evs : List PEv) :
    playRun tf s (e :: evs) = playRun tf (playEvStep tf s e) evs := rfl

/-- The active stream id never decreases. -/
theorem playEvStep_active_mono (tf : Nat) (s : PlayState) (e : PEv) :
    s.activeStreamId ≤ (playEvStep tf s e).activeStreamId := by
  cases e with
  | request => simp [playEvStep, playRequest]
  | step c =>
      simp only [playEvStep, loopStep]
      rcases s.loops.lookup c with _ | i
      · simp
      · dsimp only
        split
        · simp
        · split <;> simp

/-- A superseded loop iteration emits nothing. -/
theorem loopStep_superseded_no_emit (tf : Nat) (s : PlayState) (c : Nat)
    (h : s.activeStreamId ≠ c) :
    (loopStep tf s c).sent = s.sent := by
  simp only [loopStep]
  rcases s.loops.lookup c with _ | i
  · rfl
  · simp [h]

/-- Frames for a token strictly below the active stream id never grow. -/
theorem playRun_superseded_no_emit (tf : Nat) (s : PlayState) (c : Nat)
    (evs : List PEv) (h : c < s.activeStreamId) :
    (playRun tf s evs).sent.filter (fun p => p.1 == c) =
      s.sent.filter (fun p => p.1 == c) := by
  induction evs generalizing s with
  | nil => rfl
  | cons e rest ih =>
      rw [playRun_cons]
      have hmono := playEvStep_active_mono tf s e
      rw [ih _ (lt_of_lt_of_le h hmono)]
      cases e with
      | request => simp [playEvStep, playRequest]
      | step c' =>
          simp only [playEvStep, loopStep]
          rcases s.loops.lookup c' with _ | i
          · rfl
          · dsimp only
            split
            · rfl
            · split
              · have hne : c' ≠ c := by omega
                simp [List.filter_append, hne]
              · rfl

/-- C4: (i) an iteration of a loop whose captured token no longer equals the
session's `activeStreamId` emits no frame (the cancellation check runs
before each frame's send, so a superseded loop stops at its very next
iteration — within one pacing interval); (ii) across any further event
sequence, a superseded token's emitted-frame log never grows, so after a
second `play_bhajan` request the first loop emits no further frames;
(iii) a new request returns to its caller immediately: it just advances
`activeStreamId` and registers the new loop, emitting nothing and leaving
every existing loop's progress unchanged. -/
theorem playback_token_cancellation (tf : Nat) (s : PlayState) (c : Nat)
    (h : c < s.activeStreamId) :
    (loopStep tf s c).sent = s.sent ∧
    (∀ evs : List PEv,
      (playRun tf s evs).sent.filter (fun p => p.1 == c) =
        s.sent.filter (fun p => p.1 == c)) ∧
    (playRequest s).activeStreamId = s.activeStreamId + 1 ∧
    (playRequest s).sent = s.sent ∧
    (playRequest s).loops = s.loops ++ [(s.activeStreamId + 1, 0)] := by
  refine ⟨loopStep_superseded_no_emit tf s c (by omega), ?_, rfl, rfl, rfl⟩
  intro evs
  exact playRun_superseded_no_emit tf s c evs h

theorem playback_token_cancellation_witness :
    (1 : Nat) < (playRun 5 playInit [PEv.request, PEv.step 1, PEv.request]).activeStreamId ∧
    (playRun 5 (playRun 5 playInit [PEv.request, PEv.step 1, PEv.request])
        [PEv.step 1, PEv.step 2]).sent.filter (fun p => p.1 == 1) =
      (playRun 5 playInit [PEv.request, PEv.step 1, PEv.request]).sent.filter
        (fun p => p.1 == 1) :=
  ⟨by decide,
    (playback_token_cancellation 5 (playRun 5 playInit [PEv.request, PEv.step 1, PEv.request])
      1 (by decide)).2.1 [PEv.step 1, PEv.step 2]⟩

/-! ## Usage meter (src/README.md, embedded usage-tracking server variant)

The connection handler reads the user's post-reset usage record, refuses
the session when `session_time >= limit` (error notice, close, return)
before the 30-second `usageInterval` is created and before any provider
bridging; otherwise it starts the meter and proceeds.  The periodic tick
and the close handler both compute
`currentTotal = initialSessionTime + floor((now - sessionStart)/1000)`;
the tick persists unconditionally and closes when `currentTotal >= limit`,
while the close handler persists only when `currentTotal < limit`. -/

structure ConnUser where
  is_premium : Bool
  session_time : Nat
deriving DecidableEq, Repr

inductive ServerMsg where
  | limitExceeded
  | authConfig
deriving DecidableEq, Repr

structure ConnOutcome where
  sent : List ServerMsg
  closed : Bool
  meterStarted : Bool
  bridged : Bool
deriving DecidableEq, Repr

/-- `PREMIUM_LIMIT_SECONDS` / `FREE_LIMIT_SECONDS` come from the repository's
utils module (not under src/), so the two quota constants stay parameters. -/
def limitFor (premiumLimit freeLimit : Nat) (u : ConnUser) : Nat :=
  if u.is_premium then premiumLimit else freeLimit

/-- The `wss.on("connection")` handler's quota gate: refuse-and-close before
the meter starts, or start the meter and bridge. -/
def handleConnection (premiumLimit freeLimit : Nat) (u : ConnUser) : ConnOutcome :=
  if u.session_time ≥ limitFor premiumLimit freeLimit u then
    { sent := [ServerMsg.limitExceeded], closed := true,
      meterStarted := false, bridged := false }
  else
    { sent := [ServerMsg.authConfig], closed := false,
      meterStarted := true, bridged := true }

def elapsedSecondsAt (sessionStartMs nowMs : Nat) : Nat :=
  (nowMs - sessionStartMs) / 1000

/-- One `usageInterval` tick: the value it persists, and whether it sends the
quota notice and closes the session. -/
def usageTick (initialSessionTime limit sessionStartMs nowMs : Nat) : Nat × Bool :=
  let currentTotal := initialSessionTime + elapsedSecondsAt sessionStartMs nowMs
  (currentTotal, decide (currentTotal ≥ limit))

/-- The `ws.on("close")` handler's final persist: `some` persisted value, or
`none` when the guard `currentTotal < limit` suppresses the write. -/
def closeHandlerPersist (initialSessionTime limit sessionStartMs nowMs : Nat) :
    Option Nat :=
  let currentTotal := initialSessionTime + elapsedSecondsAt sessionStartMs nowMs
  if currentTotal < limit then some currentTotal else none

/-- C7: a user at or over quota at session start is refused immediately: the
quota-exceeded notice is sent, the socket is closed, and neither the usage
meter nor any provider bridging is started. -/
theorem session_refused_at_quota (premiumLimit freeLimit : Nat) (u : ConnUser)
    (h : u.session_time ≥ limitFor premiumLimit freeLimit u) :
    handleConnection premiumLimit freeLimit u =
      { sent := [ServerMsg.limitExceeded], closed := true,
        meterStarted := false, bridged := false } := by
  simp [handleConnection, h]

theorem session_refused_at_quota_witness :
    (600 : Nat) ≥ limitFor 1800 600 { is_premium := false, session_time := 600 } ∧
    handleConnection 1800 600 { is_premium := false, session_time := 600 } =
      { sent := [ServerMsg.limitExceeded], closed := true,
        meterStarted := false, bridged := false } :=
  ⟨by decide,
    session_refused_at_quota 1800 600 { is_premium := false, session_time := 600 }
      (by decide)⟩

/-- C8 counterexample: with prior cumulative 590 s and quota 600 s, the tick
at 30 s persists 620 and closes the session for exceeding quota, but the
close handler at 31 s then performs no final persist at all (its guard
`currentTotal < limit` fails), contradicting "exactly one final persist on
every session close, including when the session ended because the quota was
reached". -/
theorem close_skips_final_persist_when_quota_reached :
    (usageTick 590 600 0 30000).1 = 620 ∧
    (usageTick 590 600 0 30000).2 = true ∧
    closeHandlerPersist 590 600 0 31000 = none := by
  decide

/-- C8 (amended): the close handler performs the final persist of
`elapsed = priorCumulative + floor(secondsSinceSessionStart)` — the same
formula the periodic tick persists — exactly when that total is still below
the quota; when the session ended with the quota reached, the close handler
skips the final persist (the quota tick's own persisted value stands).  A
persisted close value never exceeds prior cumulative plus true wall-clock
connected seconds. -/
theorem close_persist_behaviour (i l s now : Nat) :
    (i + elapsedSecondsAt s now < l →
      closeHandlerPersist i l s now = some (usageTick i l s now).1) ∧
    (l ≤ i + elapsedSecondsAt s now → closeHandlerPersist i l s now = none) ∧
    (∀ v, closeHandlerPersist i l s now = some v → v ≤ i + (now - s) / 1000) := by
  refine ⟨fun h => ?_, fun h => ?_, fun v hv => ?_⟩
  · simp [closeHandlerPersist, usageTick, h]
  · simp [closeHandlerPersist, Nat.not_lt.mpr h]
  · unfold closeHandlerPersist elapsedSecondsAt at hv
    simp only [] at hv
    by_cases hc : i + (now - s) / 1000 < l
    · rw [if_pos hc, Option.some_inj] at hv
      omega
    · rw [if_neg hc] at hv
      exact absurd hv (by simp)

theorem close_persist_behaviour_witness :
    closeHandlerPersist 590 600 0 5000 = some (usageTick 590 600 0 5000).1 :=
  (close_persist_behaviour 590 600 0 5000).1 (by decide)

/-! ## Connection registry (src/realtime/connections.ts)

The file holds two drafts of `sendToDevice`.  The first (lines 18-25)
checks `ws && ws.readyState === OPEN` and calls
`ws.send(JSON.stringify(message))` with no try/catch; the second
(lines 41-63) checks only that an entry exists and wraps the send in
try/catch.  A socket entry is abstracted by whether its `readyState` is
OPEN and whether `JSON.stringify`-plus-`send` throws on this call;
`Except.error ()` models an exception escaping the function. -/

structure SocketModel where
  readyStateOpen : Bool
  sendThrows : Bool
deriving DecidableEq, Repr

/-- First `sendToDevice` draft (connections.ts lines 18-25): readyState
check, no try/catch. -/
def sendToDevice (conn : Option SocketModel) : Except Unit Bool :=
  match conn with
  | some ws =>
      if ws.readyStateOpen then
        if ws.sendThrows then Except.error () else Except.ok true
      else Except.ok false
  | none => Except.ok false

/-- Second `sendToDevice` draft (connections.ts lines 41-63): `!ws` check,
then try/catch around the send (the entries stored by `addConnection` are
socket objects, so the `typeof ws.send === 'function'` test holds and its
duplicated second branch is unreachable). -/
def sendToDevice2 (conn : Option SocketModel) : Except Unit Bool :=
  match conn with
  | none => Except.ok false
  | some ws => if ws.sendThrows then Except.ok false else Except.ok true

/-- C9 counterexample: the no-try/catch draft lets a failure during
serialization or send escape as an exception (not a boolean) for an OPEN
socket, and the try/catch draft returns `true` for a closed-but-registered
socket whose send call does not throw — so "never throws, and false for
any closed socket or send failure" does not hold of either draft. -/
theorem sendToDevice_can_throw :
    sendToDevice (some { readyStateOpen := true, sendThrows := true })
      = Except.error () ∧
    sendToDevice2 (some { readyStateOpen := false, sendThrows := false })
      = Except.ok true :=
  ⟨rfl, rfl⟩

/-- C9 (amended): the try/catch draft never lets an exception escape — an
absent entry or a send failure yields `false`, anything else `true` (even a
closed socket, whose send does not throw in the ws/Deno socket APIs); the
readyState-checking draft returns `false` for an absent or non-OPEN socket
and `true` for an accepted write, but a serialization/send failure on an
OPEN socket escapes as an exception. -/
theorem sendToDevice_behaviour :
    (∀ conn : Option SocketModel, ∃ b : Bool, sendToDevice2 conn = Except.ok b) ∧
    (sendToDevice2 none = Except.ok false) ∧
    (∀ ws : SocketModel, ws.sendThrows = true → sendToDevice2 (some ws) = Except.ok false) ∧
    (sendToDevice none = Except.ok false) ∧
    (∀ ws : SocketModel, ws.readyStateOpen = false → sendToDevice (some ws) = Except.ok false) ∧
    (∀ ws : SocketModel, ws.readyStateOpen = true → ws.sendThrows = false →
      sendToDevice (some ws) = Except.ok true) := by
  refine ⟨?_, rfl, ?_, rfl, ?_, ?_⟩
  · rintro (_ | ⟨ws⟩)
    · exact ⟨false, rfl⟩
    · by_cases h : ws.sendThrows <;> simp [sendToDevice2, h]
  · intro ws h
    simp [sendToDevice2, h]
  · intro ws h
    simp [sendToDevice, h]
  · intro ws h1 h2
    simp [sendToDevice, h1, h2]

theorem sendToDevice_behaviour_witness :
    sendToDevice2 (some { readyStateOpen := true, sendThrows := true })
      = Except.ok false ∧
    sendToDevice (some { readyStateOpen := false, sendThrows := false })
      = Except.ok false ∧
    sendToDevice (some { readyStateOpen := true, sendThrows := false })
      = Except.ok true :=
  ⟨sendToDevice_behaviour.2.2.1 _ rfl,
    sendToDevice_behaviour.2.2.2.2.1 _ rfl,
    sendToDevice_behaviour.2.2.2.2.2 _ rfl rfl⟩

/-! ## Bhajan command dispatch (src/bhajans.ts lines 184-218)

`sendBhajanCommandToDevice` builds one message and tries the dedicated
`<deviceId>-bhajan` registry key first, falling back to the main
`deviceId` key.  Delivery is abstracted by a success function per registry
key (both `sendToDevice` drafts return a boolean that depends only on the
keyed entry's state).  The message's ISO timestamp string is an opaque
clock value not relevant to any claim and is omitted from the record;
JavaScript truthiness makes `bhajan_id` absent for `bhajanId = 0` or
`undefined`, and `url` absent for an empty or missing string. -/

structure BhajanMessage where
  msgType : String
  command : String
  bhajan_id : Option Int
  url : Option String
deriving DecidableEq, Repr

def buildBhajanCommandMessage (command : String) (bhajanId : Option Int)
    (url : Option String) : BhajanMessage :=
  { msgType := "bhajan_command",
    command := command,
    bhajan_id :=
      match bhajanId with
      | some b => if b ≠ 0 then some b else none
      | none => none,
    url :=
      match url with
      | some u => if u ≠ "" then some u else none
      | none => none }

/-- Returns the boolean result together with the ordered list of
(registry key, message) delivery attempts made. -/
def sendBhajanCommandToDevice (deliver : String → Bool) (deviceId command : String)
    (bhajanId : Option Int) (url : Option String) :
    Bool × List (String × BhajanMessage) :=
  let message := buildBhajanCommandMessage command bhajanId url
  let bhajanKey := deviceId ++ "-bhajan"
  if deliver bhajanKey then (true, [(bhajanKey, message)])
  else (deliver deviceId, [(bhajanKey, message), (deviceId, message)])

/-- C10: the dedicated `<deviceId>-bhajan` key is tried first and, on
success, the function returns `true` without contacting the main key;
otherwise it attempts the main key and returns that delivery's result.
The outgoing message carries a `bhajan_id` field exactly when the
`bhajanId` argument is a truthy number — in particular `bhajanId = 0`
produces a message with no `bhajan_id` field. -/
theorem sendBhajanCommand_dispatch (deliver : String → Bool)
    (deviceId command : String) (bhajanId : Option Int) (url : Option String) :
    (deliver (deviceId ++ "-bhajan") = true →
      sendBhajanCommandToDevice deliver deviceId command bhajanId url =
        (true, [(deviceId ++ "-bhajan", buildBhajanCommandMessage command bhajanId url)])) ∧
    (deliver (deviceId ++ "-bhajan") = false →
      sendBhajanCommandToDevice deliver deviceId command bhajanId url =
        (deliver deviceId,
          [(deviceId ++ "-bhajan", buildBhajanCommandMessage command bhajanId url),
            (deviceId, buildBhajanCommandMessage command bhajanId url)])) ∧
    (∀ b : Int, (buildBhajanCommandMessage command bhajanId url).bhajan_id = some b ↔
      bhajanId = some b ∧ b ≠ 0) ∧
    (buildBhajanCommandMessage command (some 0) url).bhajan_id = none := by
  refine ⟨fun h => ?_, fun h => ?_, fun b => ?_, ?_⟩
  · simp [sendBhajanCommandToDevice, h]
  · simp [sendBhajanCommandToDevice, h]
  · rcases bhajanId with _ | ⟨x⟩
    · simp [buildBhajanCommandMessage]
    · by_cases hx : x = 0
      · subst hx
        simp [buildBhajanCommandMessage]
        omega
      · simp only [buildBhajanCommandMessage, ne_eq, hx, not_false_eq_true, if_true]
        constructor
        · intro h
          exact ⟨h, fun hb => hx (by simpa [hb] using h)⟩
        · exact And.left
  · simp [buildBhajanCommandMessage]

theorem sendBhajanCommand_dispatch_witness :
    sendBhajanCommandToDevice (fun _ => true) "dev" "PLAY" (some 3) none =
      (true, [("dev" ++ "-bhajan", buildBhajanCommandMessage "PLAY" (some 3) none)]) ∧
    sendBhajanCommandToDevice (fun _ => false) "dev" "PAUSE" (some 0) none =
      (false, [("dev" ++ "-bhajan", buildBhajanCommandMessage "PAUSE" (some 0) none),
        ("dev", buildBhajanCommandMessage "PAUSE" (some 0) none)]) :=
  ⟨(sendBhajanCommand_dispatch (fun _ => true) "dev" "PLAY" (some 3) none).1 rfl,
    (sendBhajanCommand_dispatch (fun _ => false) "dev" "PAUSE" (some 0) none).2.1 rfl⟩
